import Mathlib

/-!
# Solar-system visualisation: frame loop, camera controller and pointer handlers

A shallow embedding of `src/main.js` (class `SolarSystem`).  Numbers are the
elements of a linearly ordered field `α` (exact arithmetic: `ℚ` for evaluation,
`ℝ` for the statements about `π`); the two accumulating lines of the frame
loop are also given in binary64, the number type the program runs on.  The
parts of the browser and of the rendering library that the program only reads
are inputs: the `Math` object,
the clock readings of a frame, the pointer coordinates of an event and the
ray-cast intersection list.
-/

set_option autoImplicit false
set_option linter.unusedSectionVars false

namespace SolarSystem

/-! ## Data model -/

/-- The members of the JavaScript `Math` object that the program reads.
`random k` is the value returned by the `k`-th call of `Math.random()`. -/
structure MathEnv (α : Type) where
  PI : α
  sin : α → α
  cos : α → α
  random : Nat → α

/-- One entry of `this.planetData` (constructor, lines 18-27), with its key. -/
structure PlanetData (α : Type) where
  key : String
  name : String
  size : α
  distance : α
  speed : α
  color : Nat
  info : String

/-- The object stored in `planet.userData` by `createPlanets`. -/
structure UserData where
  name : String
  info : String
  originalColor : Nat
  isHovered : Bool
deriving DecidableEq

/-- The fields of a planet mesh that the program reads or writes:
`position.x`, `position.y`, `rotation.y`, `material.emissive` and `userData`. -/
structure Mesh (α : Type) where
  positionX : α
  positionY : α
  rotationY : α
  emissive : Nat
  userData : UserData

/-- One entry of `this.planets` (createPlanets, lines 184-193).  The field
`orbitGroupRotationY` is `orbitGroup.rotation.y`. -/
structure Planet (α : Type) where
  key : String
  mesh : Mesh α
  orbitGroupRotationY : α
  angle : α
  speed : α
  baseSpeed : α
  distance : α
  rotationSpeed : α
  pulsePhase : α

/-- The object `this.mouse` (constructor, line 36). -/
structure Mouse (α : Type) where
  x : α
  y : α
  isDragging : Bool
  previousX : α
  previousY : α

/-- The object `this.cameraControls` (constructor, lines 37-44). -/
structure CameraControls (α : Type) where
  targetRotationX : α
  targetRotationY : α
  targetDistance : α
  currentRotationX : α
  currentRotationY : α
  currentDistance : α

/-- The fields of `this.sun` that the frame loop writes. -/
structure Sun (α : Type) where
  rotationY : α

/-- The fields of `this.sunGlow` that the frame loop writes. -/
structure SunGlow (α : Type) where
  opacity : α
  rotationY : α

/-- The fields of `this.stars` that the frame loop writes. -/
structure Stars (α : Type) where
  rotationX : α
  rotationY : α

/-- A three-component position (`camera.position`). -/
structure Vec3 (α : Type) where
  x : α
  y : α
  z : α

/-- The state of a `SolarSystem` object.  `planets` and `orbitLines` keep the
insertion order of the keys of `planetData`; `orbitLines` holds each line's
`material.opacity`; `infoPanel` is the planet shown in the info panel
(`none` when the panel is hidden); `cursor` is `document.body.style.cursor`. -/
structure State (α : Type) where
  isAnimating : Bool
  isDarkTheme : Bool
  planets : List (Planet α)
  orbitLines : List α
  stars : Option (Stars α)
  sun : Option (Sun α)
  sunGlow : Option (SunGlow α)
  mouse : Mouse α
  cameraControls : CameraControls α
  cameraPosition : Vec3 α
  infoPanel : Option UserData
  cursor : String

/-- The events the program reacts to.  `mousemove` carries the result of
`raycaster.intersectObjects(planetMeshes)` as the list of the indices of the
intersected planet meshes, nearest first; `frame` carries the two clock
readings `clock.getDelta()` and `clock.getElapsedTime()`; `sliderInput i v`
is an input event of the `i`-th planet's slider with parsed value `v`, and
`sliderTimeout i c` the timer that `animateSliderFeedback` sets for it. -/
inductive Event (α : Type) where
  | mousedown (clientX clientY : α)
  | mousemove (clientX clientY : α) (intersects : List Nat)
  | mouseup
  | wheel (deltaY : α)
  | frame (delta time : α)
  | sliderInput (i : Nat) (newSpeed : α)
  | sliderTimeout (i : Nat) (originalEmissive : Nat)
  | pauseClick
  | themeClick

variable {α : Type} [LinearOrderedField α]

/-! ## Construction -/

/-- The table `this.planetData` (constructor, lines 18-27). -/
def planetData : List (PlanetData α) :=
  [ ⟨"mercury", "Mercury", 0.38, 8, 4.74, 0x8c7853,
      "Closest planet to the Sun, extreme temperatures"⟩,
    ⟨"venus", "Venus", 0.95, 12, 3.50, 0xffa500,
      "Hottest planet with thick atmosphere"⟩,
    ⟨"earth", "Earth", 1.0, 16, 2.98, 0x6b93d6,
      "Our home planet with water and life"⟩,
    ⟨"mars", "Mars", 0.53, 20, 2.41, 0xcd5c5c,
      "The Red Planet with polar ice caps"⟩,
    ⟨"jupiter", "Jupiter", 2.8, 28, 1.31, 0xd2691e,
      "Largest planet with Great Red Spot"⟩,
    ⟨"saturn", "Saturn", 2.3, 36, 0.97, 0xfad5a5,
      "Famous for its beautiful ring system"⟩,
    ⟨"uranus", "Uranus", 1.6, 44, 0.68, 0x4fd0e7,
      "Ice giant tilted on its side"⟩,
    ⟨"neptune", "Neptune", 1.5, 52, 0.54, 0x4169e1,
      "Windiest planet in the solar system"⟩ ]

/-- The body of the `forEach` of `createPlanets` (lines 157-194) for the
`i`-th key: the mesh starts at `position.x = data.distance` with no hover,
the orbit group is unrotated, and the angle and the pulse phase are the
`2 i`-th and `2 i + 1`-th random numbers times `Math.PI * 2`. -/
def createPlanet (M : MathEnv α) (i : Nat) (data : PlanetData α) : Planet α :=
  { key := data.key
    mesh :=
      { positionX := data.distance
        positionY := 0
        rotationY := 0
        emissive := 0x000000
        userData :=
          { name := data.name, info := data.info,
            originalColor := data.color, isHovered := false } }
    orbitGroupRotationY := 0
    angle := M.random (2 * i) * M.PI * 2
    speed := data.speed
    baseSpeed := data.speed
    distance := data.distance
    rotationSpeed := 0
    pulsePhase := M.random (2 * i + 1) * M.PI * 2 }

/-- The method `createPlanets`: one planet per key of `planetData`, in order. -/
def createPlanets (M : MathEnv α) : List (Planet α) :=
  (planetData : List (PlanetData α)).enum.map (fun d => createPlanet M d.1 d.2)

/-- The state of the object once the constructor has set its fields and
`init` has run `createScene` ... `setupEventListeners` (lines 2-60), before
the first call of `animate`. -/
def new (M : MathEnv α) : State α :=
  { isAnimating := true
    isDarkTheme := true
    planets := createPlanets M
    orbitLines := (planetData : List (PlanetData α)).map (fun _ => 0.3)
    stars := some { rotationX := 0, rotationY := 0 }
    sun := some { rotationY := 0 }
    sunGlow := some { opacity := 0.1, rotationY := 0 }
    mouse := { x := 0, y := 0, isDragging := false, previousX := 0, previousY := 0 }
    cameraControls :=
      { targetRotationX := 0, targetRotationY := 0, targetDistance := 60,
        currentRotationX := 0, currentRotationY := 0, currentDistance := 60 }
    cameraPosition := { x := 0, y := 30, z := 60 }
    infoPanel := none
    cursor := "" }

/-! ## The frame loop -/

/-- The method `updateCameraPosition` (lines 465-480). -/
def updateCameraPosition (M : MathEnv α) (s : State α) : State α :=
  let lerpFactor : α := 0.05
  let c := s.cameraControls
  let currentRotationX := c.currentRotationX + (c.targetRotationX - c.currentRotationX) * lerpFactor
  let currentRotationY := c.currentRotationY + (c.targetRotationY - c.currentRotationY) * lerpFactor
  let currentDistance := c.currentDistance + (c.targetDistance - c.currentDistance) * lerpFactor
  let x := M.sin currentRotationY * M.cos currentRotationX * currentDistance
  let y := M.sin currentRotationX * currentDistance
  let z := M.cos currentRotationY * M.cos currentRotationX * currentDistance
  { s with
    cameraControls :=
      { c with
        currentRotationX := currentRotationX
        currentRotationY := currentRotationY
        currentDistance := currentDistance }
    cameraPosition := { x := x, y := y, z := z } }

/-- The body of the planet loop of `animate` (lines 507-525). -/
def animatePlanet (M : MathEnv α) (delta time : α) (planet : Planet α) : Planet α :=
  let angle := planet.angle + delta * planet.speed * 0.1
  let rotationY := planet.mesh.rotationY + delta * 2
  let positionY :=
    if planet.mesh.userData.isHovered then
      M.sin (time * 4 + planet.pulsePhase) * 0.2
    else
      planet.mesh.positionY + (0 - planet.mesh.positionY) * 0.1
  { planet with
    angle := angle
    orbitGroupRotationY := angle
    mesh := { planet.mesh with rotationY := rotationY, positionY := positionY } }

/-- The guarded block `if (this.isAnimating) { ... }` of `animate`
(lines 494-537). -/
def animateScene (M : MathEnv α) (s : State α) (delta time : α) : State α :=
  let sun := s.sun.map (fun sun => { sun with rotationY := sun.rotationY + delta * 0.5 })
  let sunGlow :=
    if s.sun.isSome then
      s.sunGlow.map (fun g =>
        { opacity := 0.1 + M.sin (time * 2) * 0.05
          rotationY := g.rotationY + delta * 0.2 })
    else s.sunGlow
  let planets := s.planets.map (animatePlanet M delta time)
  let stars := s.stars.map (fun st =>
    { rotationY := st.rotationY + delta * 0.02
      rotationX := st.rotationX + delta * 0.01 })
  let orbitLines := s.orbitLines.enum.map (fun l => 0.2 + M.sin (time + (l.1 : α)) * 0.1)
  { s with
    sun := sun, sunGlow := sunGlow, planets := planets, stars := stars,
    orbitLines := orbitLines }

/-- The method `animate` (lines 488-543) for one frame whose clock readings
are `delta` and `time`. -/
def animate (M : MathEnv α) (s : State α) (delta time : α) : State α :=
  let s1 := if s.isAnimating then animateScene M s delta time else s
  updateCameraPosition M s1

/-! ## Event handlers -/

/-- The hover reset of the `mousemove` handler (lines 330-335). -/
def resetHover (planet : Planet α) : Planet α :=
  if planet.mesh.userData.isHovered then
    { planet with
      mesh :=
        { planet.mesh with
          emissive := 0x000000
          userData := { planet.mesh.userData with isHovered := false } } }
  else planet

/-- The hover highlight of the `mousemove` handler (lines 338-340). -/
def setHover (planet : Planet α) : Planet α :=
  { planet with
    mesh :=
      { planet.mesh with
        emissive := 0x222222
        userData := { planet.mesh.userData with isHovered := true } } }

/-- Apply `f` to the `i`-th element of a list (an object reached through a
reference is updated in place). -/
def updateAt {β : Type} (f : β → β) : Nat → List β → List β
  | _, [] => []
  | 0, b :: bs => f b :: bs
  | i + 1, b :: bs => b :: updateAt f i bs

/-- The first block of the `mousemove` handler (lines 306-319): camera
rotation while dragging. -/
def dragRotate (M : MathEnv α) (s : State α) (clientX clientY : α) : State α :=
  if s.mouse.isDragging then
    let deltaX := clientX - s.mouse.previousX
    let deltaY := clientY - s.mouse.previousY
    let targetRotationY := s.cameraControls.targetRotationY + deltaX * 0.01
    let targetRotationX := s.cameraControls.targetRotationX + deltaY * 0.01
    let targetRotationX := max (-M.PI / 2) (min (M.PI / 2) targetRotationX)
    { s with
      cameraControls :=
        { s.cameraControls with
          targetRotationY := targetRotationY
          targetRotationX := targetRotationX }
      mouse := { s.mouse with previousX := clientX, previousY := clientY } }
  else s

/-- The second block of the `mousemove` handler (lines 321-346): planet hover
detection.  The `match` is the test
`intersects.length > 0 && !this.mouse.isDragging`, with `intersects[0]` bound
to `i` in its first branch. -/
def hoverPick (s : State α) (intersects : List Nat) : State α :=
  let planets := s.planets.map resetHover
  match intersects, s.mouse.isDragging with
  | i :: _, false =>
    let planets := updateAt setHover i planets
    { s with
      planets := planets
      infoPanel := (planets.get? i).map (fun p => p.mesh.userData)
      cursor := "pointer" }
  | _, _ => { s with planets := planets, infoPanel := none, cursor := "default" }

/-- The `mousemove` handler (lines 305-347). -/
def onMouseMove (M : MathEnv α) (s : State α) (clientX clientY : α)
    (intersects : List Nat) : State α :=
  hoverPick (dragRotate M s clientX clientY) intersects

/-- The `mousedown` handler (lines 350-355). -/
def onMouseDown (s : State α) (clientX clientY : α) : State α :=
  { s with
    mouse := { s.mouse with isDragging := true, previousX := clientX, previousY := clientY }
    cursor := "grabbing" }

/-- The `mouseup` handler on `window` (lines 358-361). -/
def onMouseUp (s : State α) : State α :=
  { s with mouse := { s.mouse with isDragging := false }, cursor := "default" }

/-- The `wheel` handler (lines 364-371). -/
def onWheel (s : State α) (deltaY : α) : State α :=
  let zoomSpeed : α := 5
  let direction : α := if deltaY > 0 then 1 else -1
  let targetDistance := s.cameraControls.targetDistance + direction * zoomSpeed
  let targetDistance := max 20 (min 200 targetDistance)
  { s with cameraControls := { s.cameraControls with targetDistance := targetDistance } }

/-- The slider `input` handler (lines 272-279) with `animateSliderFeedback`
(lines 283-290) up to the point where the timer is set. -/
def onSliderInput (s : State α) (i : Nat) (newSpeed : α) : State α :=
  { s with
    planets :=
      updateAt (fun p => { p with speed := newSpeed, mesh := { p.mesh with emissive := 0x444444 } })
        i s.planets }

/-- The timer callback of `animateSliderFeedback` (lines 291-293). -/
def onSliderTimeout (s : State α) (i : Nat) (originalEmissive : Nat) : State α :=
  { s with
    planets :=
      updateAt (fun p => { p with mesh := { p.mesh with emissive := originalEmissive } })
        i s.planets }

/-- The state change of `toggleAnimation` (line 415). -/
def toggleAnimation (s : State α) : State α :=
  { s with isAnimating := !s.isAnimating }

/-- The state change of `toggleTheme` (line 428). -/
def toggleTheme (s : State α) : State α :=
  { s with isDarkTheme := !s.isDarkTheme }

/-- One event, dispatched to its handler. -/
def step (M : MathEnv α) (s : State α) : Event α → State α
  | .mousedown x y => onMouseDown s x y
  | .mousemove x y hits => onMouseMove M s x y hits
  | .mouseup => onMouseUp s
  | .wheel deltaY => onWheel s deltaY
  | .frame delta time => animate M s delta time
  | .sliderInput i v => onSliderInput s i v
  | .sliderTimeout i c => onSliderTimeout s i c
  | .pauseClick => toggleAnimation s
  | .themeClick => toggleTheme s

/-- The state after a finite sequence of events, handled one at a time. -/
def run (M : MathEnv α) (s : State α) (events : List (Event α)) : State α :=
  events.foldl (step M) s

/-- The state after a sequence of frames given by their clock readings
`(delta, time)`, with no other event in between. -/
def runFrames (M : MathEnv α) (s : State α) (frames : List (α × α)) : State α :=
  frames.foldl (fun st f => animate M st f.1 f.2) s

/-- Whether the `i`-th planet has `mesh.userData.isHovered` set. -/
def isHoveredAt (s : State α) (i : Nat) : Bool :=
  match s.planets[i]? with
  | some p => p.mesh.userData.isHovered
  | none => false

/-- The vertical offset `mesh.position.y` of the `i`-th planet (`0` when there
is no such planet). -/
def offsetAt (s : State α) (i : Nat) : α :=
  match s.planets[i]? with
  | some p => p.mesh.positionY
  | none => 0

/-- The three smoothed camera parameters. -/
inductive Channel where
  | yaw
  | pitch
  | distance
deriving DecidableEq

/-- The smoothed value of a camera parameter. -/
def Channel.current (c : Channel) (s : State α) : α :=
  match c with
  | .yaw => s.cameraControls.currentRotationY
  | .pitch => s.cameraControls.currentRotationX
  | .distance => s.cameraControls.currentDistance

/-- The target value of a camera parameter. -/
def Channel.target (c : Channel) (s : State α) : α :=
  match c with
  | .yaw => s.cameraControls.targetRotationY
  | .pitch => s.cameraControls.targetRotationX
  | .distance => s.cameraControls.targetDistance

/-- The error of a camera parameter: its smoothed value minus its target. -/
def Channel.error (c : Channel) (s : State α) : α :=
  c.current s - c.target s

/-- The states the object can be in: those reached from the constructed
object by a finite sequence of events. -/
def Reachable (M : MathEnv α) (s : State α) : Prop :=
  ∃ events : List (Event α), s = run M (new M) events

/-- The pitch and the distance of the camera, target and smoothed, are within
their clamping ranges. -/
def CameraInRange (M : MathEnv α) (s : State α) : Prop :=
  s.cameraControls.targetRotationX ∈ Set.Icc (-M.PI / 2) (M.PI / 2) ∧
  s.cameraControls.targetDistance ∈ Set.Icc (20 : α) 200 ∧
  s.cameraControls.currentRotationX ∈ Set.Icc (-M.PI / 2) (M.PI / 2) ∧
  s.cameraControls.currentDistance ∈ Set.Icc (20 : α) 200

/-- The `Math` object over the rationals used for evaluation: `PI` is the
approximation `355/113`, `sin` and `cos` are the constant functions `0` and
`1`, and every random number is `1/2`. -/
def ratMath : MathEnv ℚ :=
  { PI := 355 / 113, sin := fun _ => 0, cos := fun _ => 1, random := fun _ => 1 / 2 }

/-- A state for evaluation: the constructed object whose third planet has been
lifted to the vertical offset `1/5`. -/
def liftedEarth : State ℚ :=
  { new ratMath with
    planets :=
      updateAt (fun p => { p with mesh := { p.mesh with positionY := 1 / 5 } }) 2
        (new ratMath).planets }

/-! ## Binary64 arithmetic

The lines of `animate` that advance the orbit angle and relax the vertical
offset, computed in the number type of JavaScript (IEEE 754 binary64, round to
nearest, ties to even) instead of an exact field.  Only finite values below
the overflow threshold are modelled; the sign of zero is not. -/

/-- A finite binary64 number, given by the integer `scaled`: its value is
`scaled * 2 ^ (-1074)` (every finite double is an integer multiple of the
least subnormal `2 ^ (-1074)`). -/
structure Double where
  scaled : Int
deriving DecidableEq

/-- Binary search for the exponent: for `2 ^ lo ≤ q < 2 ^ (lo + 2 ^ f)` the
result is the `k` with `2 ^ k ≤ q < 2 ^ (k + 1)`. -/
def log2Search : Nat → Nat → Nat → Nat
  | 0, lo, _ => lo
  | f + 1, lo, q =>
    if 2 ^ (lo + 2 ^ f) ≤ q then log2Search f (lo + 2 ^ f) q else log2Search f lo q

/-- The floor of the base-2 logarithm (`0` at `0`); equal to `Nat.log2`, and
computed by binary search below `2 ^ 4096`. -/
def floorLog2 (q : Nat) : Nat :=
  if q < 2 ^ 4096 then log2Search 12 0 q else Nat.log2 q

/-- Rounding of binary64 on magnitudes: the rational `n / d`, in units of
`2 ^ (-1074)`, is rounded to the nearest integer that has at most 53
significant bits, ties going to the even significand.  Below `2 ^ 53` units
the spacing is one unit (subnormals and the first binade); from there on it
is `2 ^ e` with `e = floorLog2 (n / d) - 52`. -/
def roundNearestEven (n d : Nat) : Nat :=
  let q := n / d
  let e := floorLog2 q - 52
  let unit := d * 2 ^ e
  let m := n / unit
  let r := n % unit
  let m1 :=
    if 2 * r < unit then m
    else if unit < 2 * r then m + 1
    else if m % 2 = 0 then m else m + 1
  m1 * 2 ^ e

/-- The double nearest to the rational `n / d` in units of `2 ^ (-1074)`
(rounding is symmetric in the sign). -/
def Double.round (n : Int) (d : Nat) : Double :=
  if n < 0 then ⟨-(roundNearestEven n.natAbs d : Int)⟩
  else ⟨(roundNearestEven n.natAbs d : Int)⟩

/-- The value of the decimal literal `m / 10 ^ e` (`Double.literal 474 2` is
the literal `4.74`): the nearest double. -/
def Double.literal (m e : Nat) : Double :=
  Double.round ((m * 2 ^ 1074 : Nat) : Int) (10 ^ e)

/-- The operator `+` on numbers: the exact sum, rounded. -/
def Double.add (x y : Double) : Double :=
  Double.round (x.scaled + y.scaled) 1

/-- The operator `-` on numbers: the exact difference, rounded. -/
def Double.sub (x y : Double) : Double :=
  Double.round (x.scaled - y.scaled) 1

/-- The operator `*` on numbers: the exact product, rounded. -/
def Double.mul (x y : Double) : Double :=
  Double.round (x.scaled * y.scaled) (2 ^ 1074)

/-- Line 511 of `animate` in binary64:
`planet.angle += delta * planet.speed * 0.1`. -/
def advanceAngle64 (angle delta speed : Double) : Double :=
  angle.add ((delta.mul speed).mul (Double.literal 1 1))

/-- The angle of a planet after running frames with the given deltas and no
other event: line 511 once per frame. -/
def runAngle64 (angle speed : Double) (deltas : List Double) : Double :=
  deltas.foldl (fun a delta => advanceAngle64 a delta speed) angle

/-- Line 523 of `animate` in binary64:
`planet.mesh.position.y += (0 - planet.mesh.position.y) * 0.1`. -/
def relax64 (y : Double) : Double :=
  y.add (((Double.literal 0 0).sub y).mul (Double.literal 1 1))

/-! ## Basic facts about the frame loop -/

section Basic

variable (M : MathEnv α) (s : State α) (delta time : α)

theorem animate_of_animating (h : s.isAnimating = true) :
    animate M s delta time = updateCameraPosition M (animateScene M s delta time) := by
  simp [animate, h]

theorem animate_of_paused (h : s.isAnimating = false) :
    animate M s delta time = updateCameraPosition M s := by
  simp [animate, h]

@[simp]
theorem updateCameraPosition_planets :
    (updateCameraPosition M s).planets = s.planets := rfl

@[simp]
theorem updateCameraPosition_isAnimating :
    (updateCameraPosition M s).isAnimating = s.isAnimating := rfl

@[simp]
theorem animateScene_isAnimating :
    (animateScene M s delta time).isAnimating = s.isAnimating := rfl

@[simp]
theorem animateScene_cameraControls :
    (animateScene M s delta time).cameraControls = s.cameraControls := rfl

@[simp]
theorem animateScene_planets :
    (animateScene M s delta time).planets = s.planets.map (animatePlanet M delta time) := rfl

@[simp]
theorem animate_isAnimating :
    (animate M s delta time).isAnimating = s.isAnimating := by
  unfold animate
  split <;> rfl

theorem animate_planets_of_animating (h : s.isAnimating = true) :
    (animate M s delta time).planets = s.planets.map (animatePlanet M delta time) := by
  rw [animate_of_animating M s delta time h]
  rfl

theorem animate_cameraControls :
    (animate M s delta time).cameraControls =
      (updateCameraPosition M s).cameraControls := by
  unfold animate
  split <;> rfl

@[simp]
theorem hoverPick_cameraControls (hits : List Nat) :
    (hoverPick s hits).cameraControls = s.cameraControls := by
  unfold hoverPick
  split <;> rfl

@[simp]
theorem hoverPick_mouse (hits : List Nat) :
    (hoverPick s hits).mouse = s.mouse := by
  unfold hoverPick
  split <;> rfl

@[simp]
theorem dragRotate_planets (x y : α) :
    (dragRotate M s x y).planets = s.planets := by
  unfold dragRotate
  split <;> rfl

@[simp]
theorem dragRotate_isDragging (x y : α) :
    (dragRotate M s x y).mouse.isDragging = s.mouse.isDragging := by
  unfold dragRotate
  split <;> rfl

@[simp]
theorem dragRotate_targetDistance (x y : α) :
    (dragRotate M s x y).cameraControls.targetDistance = s.cameraControls.targetDistance := by
  unfold dragRotate
  split <;> rfl

theorem dragRotate_of_dragging (x y : α) (h : s.mouse.isDragging = true) :
    (dragRotate M s x y).cameraControls.targetRotationY =
        s.cameraControls.targetRotationY + (x - s.mouse.previousX) * 0.01 ∧
    (dragRotate M s x y).cameraControls.targetRotationX =
        max (-M.PI / 2) (min (M.PI / 2)
          (s.cameraControls.targetRotationX + (y - s.mouse.previousY) * 0.01)) := by
  simp [dragRotate, h]

theorem dragRotate_of_not_dragging (x y : α) (h : s.mouse.isDragging = false) :
    dragRotate M s x y = s := by
  simp [dragRotate, h]

end Basic

/-! ## Orbit advance -/

theorem animate_angle_aux (M : MathEnv α) (s : State α) (delta time : α)
    (h : s.isAnimating = true) (i : Nat) (p : Planet α) (hp : s.planets[i]? = some p) :
    ∃ q, (animate M s delta time).planets[i]? = some q ∧
      q.angle = p.angle + delta * p.speed * 0.1 ∧
      q.orbitGroupRotationY = q.angle := by
  refine ⟨animatePlanet M delta time p, ?_, rfl, rfl⟩
  rw [animate_planets_of_animating M s delta time h, List.getElem?_map, hp]
  rfl

/-- C1: with `isAnimating = true`, one call of `animate` sets every planet's
angle to exactly `oldAngle + delta * speed * 0.1` (no reduction modulo `2π`)
and sets the orbit group's y-rotation to the new angle, whatever the planet,
`delta` and the planet's speed are. -/
theorem animate_angle (M : MathEnv α) (s : State α) (delta time : α)
    (h : s.isAnimating = true) (i : Nat) (p : Planet α) (hp : s.planets[i]? = some p) :
    ∃ q, (animate M s delta time).planets[i]? = some q ∧
      q.angle = p.angle + delta * p.speed * 0.1 ∧
      q.orbitGroupRotationY = q.angle :=
  animate_angle_aux M s delta time h i p hp

theorem animate_angle_witness :
    (new ratMath).isAnimating = true ∧
    ∃ q, (animate ratMath (new ratMath) (1 / 60) 0).planets[0]? = some q ∧
      q.angle = (1 / 2 * (355 / 113) * 2 : ℚ) + 1 / 60 * 4.74 * 0.1 ∧
      q.orbitGroupRotationY = q.angle :=
  ⟨rfl, animate_angle ratMath (new ratMath) (1 / 60) 0 rfl 0
    (createPlanet ratMath 0 ⟨"mercury", "Mercury", 0.38, 8, 4.74, 0x8c7853,
      "Closest planet to the Sun, extreme temperatures"⟩) rfl⟩

/-! ## Pausing -/

/-- C2: with `isAnimating = false`, one call of `animate` leaves the planets
(hence every angle and every vertical offset), the sun, the sun glow, the
starfield and the camera targets unchanged, and still performs the camera
smoothing step: each of `currentRotationX`, `currentRotationY` and
`currentDistance` moves toward its target by the factor `0.05`. -/
theorem animate_paused (M : MathEnv α) (s : State α) (delta time : α)
    (h : s.isAnimating = false) :
    (animate M s delta time).planets = s.planets ∧
    (animate M s delta time).sun = s.sun ∧
    (animate M s delta time).sunGlow = s.sunGlow ∧
    (animate M s delta time).stars = s.stars ∧
    (animate M s delta time).cameraControls.currentRotationX =
      s.cameraControls.currentRotationX +
        (s.cameraControls.targetRotationX - s.cameraControls.currentRotationX) * 0.05 ∧
    (animate M s delta time).cameraControls.currentRotationY =
      s.cameraControls.currentRotationY +
        (s.cameraControls.targetRotationY - s.cameraControls.currentRotationY) * 0.05 ∧
    (animate M s delta time).cameraControls.currentDistance =
      s.cameraControls.currentDistance +
        (s.cameraControls.targetDistance - s.cameraControls.currentDistance) * 0.05 ∧
    (animate M s delta time).cameraControls.targetRotationX = s.cameraControls.targetRotationX ∧
    (animate M s delta time).cameraControls.targetRotationY = s.cameraControls.targetRotationY ∧
    (animate M s delta time).cameraControls.targetDistance = s.cameraControls.targetDistance := by
  rw [animate_of_paused M s delta time h]
  exact ⟨rfl, rfl, rfl, rfl, rfl, rfl, rfl, rfl, rfl, rfl⟩

theorem animate_paused_witness :
    (animate ratMath (onWheel (toggleAnimation (new ratMath)) 1) 5 7).planets =
      (onWheel (toggleAnimation (new ratMath)) 1).planets ∧
    (animate ratMath (onWheel (toggleAnimation (new ratMath)) 1) 5 7).cameraControls.currentDistance
      = 60 + (65 - 60) * 0.05 :=
  have h := animate_paused ratMath (onWheel (toggleAnimation (new ratMath)) 1) 5 7 rfl
  ⟨h.1, by rw [h.2.2.2.2.2.2.1]; simp [onWheel, toggleAnimation, new]; norm_num⟩

/-! ## Clamped camera targets -/

section Clamp

variable (M : MathEnv α)

theorem onMouseMove_targetRotationX (hPI : 0 ≤ M.PI) (s : State α) (x y : α)
    (hits : List Nat)
    (h : s.cameraControls.targetRotationX ∈ Set.Icc (-M.PI / 2) (M.PI / 2)) :
    (onMouseMove M s x y hits).cameraControls.targetRotationX ∈
      Set.Icc (-M.PI / 2) (M.PI / 2) := by
  have hle : -M.PI / 2 ≤ M.PI / 2 := by linarith
  unfold onMouseMove
  rw [hoverPick_cameraControls]
  cases hd : s.mouse.isDragging with
  | true =>
    rw [(dragRotate_of_dragging M s x y hd).2]
    exact ⟨le_max_left _ _, max_le hle (min_le_left _ _)⟩
  | false =>
    rw [dragRotate_of_not_dragging M s x y hd]
    exact h

theorem step_targetRotationX (hPI : 0 ≤ M.PI) (s : State α) (e : Event α)
    (h : s.cameraControls.targetRotationX ∈ Set.Icc (-M.PI / 2) (M.PI / 2)) :
    (step M s e).cameraControls.targetRotationX ∈ Set.Icc (-M.PI / 2) (M.PI / 2) := by
  cases e with
  | mousemove x y hits => exact onMouseMove_targetRotationX M hPI s x y hits h
  | frame delta time =>
    show (animate M s delta time).cameraControls.targetRotationX ∈ _
    rw [animate_cameraControls]
    exact h
  | _ => exact h

theorem run_targetRotationX (hPI : 0 ≤ M.PI) (events : List (Event α)) (s : State α)
    (h : s.cameraControls.targetRotationX ∈ Set.Icc (-M.PI / 2) (M.PI / 2)) :
    (run M s events).cameraControls.targetRotationX ∈ Set.Icc (-M.PI / 2) (M.PI / 2) := by
  induction events generalizing s with
  | nil => exact h
  | cons e es ih => exact ih (step M s e) (step_targetRotationX M hPI s e h)

theorem new_targetRotationX (hPI : 0 ≤ M.PI) :
    (new M).cameraControls.targetRotationX ∈ Set.Icc (-M.PI / 2) (M.PI / 2) := by
  show (0 : α) ∈ _
  constructor <;> linarith

theorem onWheel_targetDistance (s : State α) (deltaY : α) :
    (onWheel s deltaY).cameraControls.targetDistance ∈ Set.Icc (20 : α) 200 :=
  ⟨le_max_left _ _, max_le (by norm_num) (min_le_left _ _)⟩

theorem step_targetDistance (s : State α) (e : Event α)
    (h : s.cameraControls.targetDistance ∈ Set.Icc (20 : α) 200) :
    (step M s e).cameraControls.targetDistance ∈ Set.Icc (20 : α) 200 := by
  cases e with
  | wheel deltaY => exact onWheel_targetDistance s deltaY
  | mousemove x y hits =>
    show (onMouseMove M s x y hits).cameraControls.targetDistance ∈ _
    unfold onMouseMove
    rw [hoverPick_cameraControls, dragRotate_targetDistance]
    exact h
  | frame delta time =>
    show (animate M s delta time).cameraControls.targetDistance ∈ _
    rw [animate_cameraControls]
    exact h
  | _ => exact h

end Clamp

/-- C3: starting from the constructed object (`targetRotationX = 0`), after any
finite sequence of events (mousedown, mousemove, mouseup, wheel and frame
events with arbitrary coordinates and clock readings, and also slider and
button events), `targetRotationX` lies in `[-π/2, π/2]`, where `Math.PI` is
the real number `π`. -/
theorem targetRotationX_mem_Icc (sin cos : ℝ → ℝ) (random : Nat → ℝ)
    (events : List (Event ℝ)) :
    (run ⟨Real.pi, sin, cos, random⟩ (new ⟨Real.pi, sin, cos, random⟩)
      events).cameraControls.targetRotationX ∈ Set.Icc (-(Real.pi / 2)) (Real.pi / 2) := by
  have h := run_targetRotationX ⟨Real.pi, sin, cos, random⟩ Real.pi_pos.le events
    (new ⟨Real.pi, sin, cos, random⟩) (new_targetRotationX _ Real.pi_pos.le)
  simpa [neg_div] using h

/-- C4: starting from the constructed object (`targetDistance = 60`), after any
finite sequence of events (wheel events with arbitrary `deltaY`, interleaved
with any other events), `targetDistance` lies in `[20, 200]`. -/
theorem targetDistance_mem_Icc (M : MathEnv α) (events : List (Event α)) :
    (run M (new M) events).cameraControls.targetDistance ∈ Set.Icc (20 : α) 200 := by
  have start : (new M).cameraControls.targetDistance ∈ Set.Icc (20 : α) 200 := by
    show (60 : α) ∈ _
    constructor <;> norm_num
  generalize new M = s at start
  induction events generalizing s with
  | nil => exact start
  | cons e es ih => exact ih (step M s e) (step_targetDistance M s e start)

/-! ## Geometric decay -/

section Geometric

variable {r : α}

theorem abs_pow_mul_le (hr0 : 0 ≤ r) (hr1 : r ≤ 1) (e : α) (n : Nat) :
    |r ^ (n + 1) * e| ≤ |r ^ n * e| := by
  rw [abs_mul, abs_mul, abs_of_nonneg (pow_nonneg hr0 _), abs_of_nonneg (pow_nonneg hr0 _)]
  exact mul_le_mul_of_nonneg_right
    (pow_le_pow_of_le_one hr0 hr1 (Nat.le_succ n)) (abs_nonneg e)

theorem exists_abs_pow_mul_lt [Archimedean α] (hr0 : 0 ≤ r) (hr1 : r < 1) (e : α)
    {ε : α} (hε : 0 < ε) : ∃ N : Nat, ∀ n, N ≤ n → |r ^ n * e| < ε := by
  by_cases he : e = 0
  · exact ⟨0, fun n _ => by simpa [he] using hε⟩
  · have hpos : 0 < |e| := abs_pos.mpr he
    obtain ⟨N, hN⟩ := exists_pow_lt_of_lt_one (div_pos hε hpos) hr1
    refine ⟨N, fun n hn => ?_⟩
    rw [abs_mul, abs_of_nonneg (pow_nonneg hr0 _)]
    have h1 : r ^ n ≤ r ^ N := pow_le_pow_of_le_one hr0 hr1.le hn
    calc r ^ n * |e| ≤ r ^ N * |e| := mul_le_mul_of_nonneg_right h1 (abs_nonneg e)
      _ < ε / |e| * |e| := mul_lt_mul_of_pos_right hN hpos
      _ = ε := div_mul_cancel₀ ε hpos.ne.symm

end Geometric

/-! ## Camera smoothing -/

section Smoothing

variable (M : MathEnv α)

theorem runFrames_cons (s : State α) (f : α × α) (frames : List (α × α)) :
    runFrames M s (f :: frames) = runFrames M (animate M s f.1 f.2) frames := rfl

theorem runFrames_append_singleton (s : State α) (frames : List (α × α)) (f : α × α) :
    runFrames M s (frames ++ [f]) = animate M (runFrames M s frames) f.1 f.2 := by
  simp [runFrames, List.foldl_append]

theorem animate_target (c : Channel) (s : State α) (delta time : α) :
    c.target (animate M s delta time) = c.target s := by
  cases c <;> simp only [Channel.target, animate_cameraControls] <;> rfl

theorem animate_error (c : Channel) (s : State α) (delta time : α) :
    c.error (animate M s delta time) = 0.95 * c.error s := by
  cases c <;>
    simp only [Channel.error, Channel.current, Channel.target, animate_cameraControls,
      updateCameraPosition] <;>
    ring

theorem runFrames_target (c : Channel) (frames : List (α × α)) (s : State α) :
    c.target (runFrames M s frames) = c.target s := by
  induction frames generalizing s with
  | nil => rfl
  | cons f fs ih => rw [runFrames_cons, ih, animate_target]

theorem runFrames_error (c : Channel) (frames : List (α × α)) (s : State α) :
    c.error (runFrames M s frames) = 0.95 ^ frames.length * c.error s := by
  induction frames generalizing s with
  | nil => simp [runFrames]
  | cons f fs ih =>
    rw [runFrames_cons, ih, animate_error, List.length_cons, pow_succ]
    ring

end Smoothing

/-- C5: from any state, under frames alone (no input, so every target stays
fixed), each of yaw, pitch and distance has error `0.95 ^ n` times its initial
error after `n` frames; so the absolute error does not increase from one frame
to the next, the smoothed value never crosses its target, and for every
`ε > 0` there is `N` such that after every `n ≥ N` frames the smoothed value
is within `ε` of its target. -/
theorem camera_smoothing [Archimedean α] (M : MathEnv α) (s : State α) (c : Channel) :
    (∀ frames : List (α × α), c.target (runFrames M s frames) = c.target s) ∧
    (∀ frames : List (α × α),
      c.error (runFrames M s frames) = 0.95 ^ frames.length * c.error s) ∧
    (∀ (frames : List (α × α)) (delta time : α),
      |c.error (animate M (runFrames M s frames) delta time)| ≤
        |c.error (runFrames M s frames)|) ∧
    (∀ frames : List (α × α),
      (c.current s ≤ c.target s →
        c.current (runFrames M s frames) ≤ c.target (runFrames M s frames)) ∧
      (c.target s ≤ c.current s →
        c.target (runFrames M s frames) ≤ c.current (runFrames M s frames))) ∧
    (∀ ε : α, 0 < ε → ∃ N : Nat, ∀ frames : List (α × α), N ≤ frames.length →
      |c.current (runFrames M s frames) - c.target (runFrames M s frames)| < ε) := by
  have h0 : (0 : α) ≤ 0.95 := by norm_num
  have h1 : (0.95 : α) < 1 := by norm_num
  refine ⟨fun frames => runFrames_target M c frames s,
    fun frames => runFrames_error M c frames s, ?_, ?_, ?_⟩
  · intro frames delta time
    rw [animate_error, runFrames_error]
    have := abs_pow_mul_le h0 h1.le (c.error s) frames.length
    rwa [pow_succ, mul_comm (0.95 ^ frames.length) (0.95 : α), mul_assoc] at this
  · intro frames
    have he := runFrames_error M c frames s
    have hp : (0 : α) ≤ 0.95 ^ frames.length := pow_nonneg h0 _
    simp only [Channel.error] at he
    constructor
    · intro h
      have : 0.95 ^ frames.length * (c.current s - c.target s) ≤ 0 :=
        mul_nonpos_of_nonneg_of_nonpos hp (by linarith)
      linarith
    · intro h
      have : 0 ≤ 0.95 ^ frames.length * (c.current s - c.target s) :=
        mul_nonneg hp (by linarith)
      linarith
  · intro ε hε
    obtain ⟨N, hN⟩ := exists_abs_pow_mul_lt h0 h1 (c.error s) hε
    refine ⟨N, fun frames hlen => ?_⟩
    have he := runFrames_error M c frames s
    simp only [Channel.error] at he
    rw [he]
    exact hN _ hlen

theorem camera_smoothing_witness :
    Channel.distance.error (runFrames ratMath (onWheel (new ratMath) 1) [(1, 1), (0, 1)]) =
        0.95 ^ 2 * Channel.distance.error (onWheel (new ratMath) 1) ∧
    ∃ N : Nat, ∀ frames : List (ℚ × ℚ), N ≤ frames.length →
      |Channel.distance.current (runFrames ratMath (onWheel (new ratMath) 1) frames) -
        Channel.distance.target (runFrames ratMath (onWheel (new ratMath) 1) frames)| < 1 :=
  ⟨(camera_smoothing ratMath (onWheel (new ratMath) 1) .distance).2.1 [(1, 1), (0, 1)],
   (camera_smoothing ratMath (onWheel (new ratMath) 1) .distance).2.2.2.2 1 one_pos⟩

/-! ## Hover picking -/

section Hover

theorem getElem?_updateAt {β : Type} (f : β → β) (l : List β) (i j : Nat) :
    (updateAt f i l)[j]? = if j = i then l[j]?.map f else l[j]? := by
  induction l generalizing i j with
  | nil => simp [updateAt]
  | cons b bs ih =>
    cases i with
    | zero => cases j <;> simp [updateAt]
    | succ i =>
      cases j with
      | zero => simp [updateAt]
      | succ j => simp [updateAt, ih]

theorem resetHover_isHovered (p : Planet α) :
    (resetHover p).mesh.userData.isHovered = false := by
  unfold resetHover
  split
  · rfl
  · simpa using ‹¬ p.mesh.userData.isHovered = true›

theorem isHoveredAt_map_resetHover (s : State α) (l : List (Planet α)) (j : Nat) :
    isHoveredAt { s with planets := l.map resetHover } j = false := by
  simp only [isHoveredAt, List.getElem?_map]
  cases l[j]? with
  | none => rfl
  | some p => exact resetHover_isHovered p

theorem hoverPick_isHoveredAt (s : State α) (hits : List Nat)
    (hvalid : ∀ i, hits.head? = some i → i < s.planets.length) (j : Nat) :
    isHoveredAt (hoverPick s hits) j = true ↔
      (s.mouse.isDragging = false ∧ hits.head? = some j) := by
  cases hits with
  | nil =>
    have h : hoverPick s [] =
        { s with planets := s.planets.map resetHover, infoPanel := none, cursor := "default" } := by
      simp [hoverPick]
    rw [h]
    have := isHoveredAt_map_resetHover { s with infoPanel := none, cursor := "default" }
      s.planets j
    simp_all
  | cons i rest =>
    cases hd : s.mouse.isDragging with
    | true =>
      have h : hoverPick s (i :: rest) =
          { s with planets := s.planets.map resetHover, infoPanel := none,
                   cursor := "default" } := by
        simp [hoverPick, hd]
      rw [h]
      have := isHoveredAt_map_resetHover { s with infoPanel := none, cursor := "default" }
        s.planets j
      simp_all
    | false =>
      have hi : i < s.planets.length := hvalid i rfl
      simp only [hoverPick, hd, isHoveredAt, getElem?_updateAt, List.getElem?_map,
        List.head?_cons, Option.some.injEq, true_and]
      by_cases hji : j = i
      · subst hji
        simp [List.getElem?_eq_getElem hi, setHover]
      · have hne : ¬ i = j := fun h => hji h.symm
        simp only [hji, hne, if_false, iff_false]
        cases s.planets[j]? with
        | none => simp
        | some p => simp [resetHover_isHovered p]

end Hover

/-- C6: after the picking pass of a `mousemove`, whatever the hover flags were
before, the planets with `isHovered = true` are exactly the first (nearest)
intersected planet when the intersection list is non-empty and no drag is
active, and none otherwise; so at most one planet is hovered, a pass with no
intersection clears every hover flag, and no planet is hovered after a pass
made during a drag.  The intersection list holds indices of planet meshes. -/
theorem hover_exclusive (M : MathEnv α) (s : State α) (x y : α) (hits : List Nat)
    (hvalid : ∀ i, hits.head? = some i → i < s.planets.length) :
    (∀ j, isHoveredAt (onMouseMove M s x y hits) j = true ↔
      (s.mouse.isDragging = false ∧ hits.head? = some j)) ∧
    (∀ j k, isHoveredAt (onMouseMove M s x y hits) j = true →
      isHoveredAt (onMouseMove M s x y hits) k = true → j = k) ∧
    (hits = [] → ∀ j, isHoveredAt (onMouseMove M s x y hits) j = false) ∧
    (s.mouse.isDragging = true → ∀ j, isHoveredAt (onMouseMove M s x y hits) j = false) := by
  have key : ∀ j, isHoveredAt (onMouseMove M s x y hits) j = true ↔
      (s.mouse.isDragging = false ∧ hits.head? = some j) := by
    intro j
    unfold onMouseMove
    rw [hoverPick_isHoveredAt _ hits (by simpa using hvalid) j, dragRotate_isDragging]
  refine ⟨key, ?_, ?_, ?_⟩
  · intro j k hj hk
    have h1 := ((key j).mp hj).2
    have h2 := ((key k).mp hk).2
    rw [h1] at h2
    exact Option.some.inj h2
  · intro hnil j
    cases h : isHoveredAt (onMouseMove M s x y hits) j with
    | false => rfl
    | true =>
      have := ((key j).mp h).2
      simp [hnil] at this
  · intro hdrag j
    cases h : isHoveredAt (onMouseMove M s x y hits) j with
    | false => rfl
    | true =>
      have := ((key j).mp h).1
      simp [hdrag] at this

theorem hover_exclusive_witness :
    (∀ j, isHoveredAt (onMouseMove ratMath (new ratMath) 3 4 [2, 5]) j = true ↔
      ((new ratMath).mouse.isDragging = false ∧ [2, 5].head? = some j)) ∧
    (∀ j, isHoveredAt
      (onMouseMove ratMath (onMouseMove ratMath (new ratMath) 3 4 [2, 5]) 9 9 []) j = false) :=
  ⟨(hover_exclusive ratMath (new ratMath) 3 4 [2, 5]
      (by intro i h; cases h; decide)).1,
   (hover_exclusive ratMath (onMouseMove ratMath (new ratMath) 3 4 [2, 5]) 9 9 []
      (by intro i h; cases h)).2.2.1 rfl⟩

/-! ## Idle bob decay -/

section Bob

variable (M : MathEnv α)

theorem animate_isHoveredAt (s : State α) (delta time : α) (i : Nat) :
    isHoveredAt (animate M s delta time) i = isHoveredAt s i := by
  cases h : s.isAnimating with
  | false => rw [animate_of_paused M s delta time h]; rfl
  | true =>
    simp only [isHoveredAt, animate_planets_of_animating M s delta time h,
      List.getElem?_map]
    cases s.planets[i]? <;> rfl

theorem animate_offsetAt (s : State α) (delta time : α) (i : Nat)
    (hrun : s.isAnimating = true) (hidle : isHoveredAt s i = false) :
    offsetAt (animate M s delta time) i = 0.9 * offsetAt s i := by
  simp only [offsetAt, isHoveredAt, animate_planets_of_animating M s delta time hrun,
    List.getElem?_map] at hidle ⊢
  cases hp : s.planets[i]? with
  | none => simp
  | some p =>
    rw [hp] at hidle
    simp only [Option.map_some', animatePlanet]
    simp only at hidle
    rw [if_neg (by simp [hidle])]
    ring

theorem runFrames_isAnimating (frames : List (α × α)) (s : State α) :
    (runFrames M s frames).isAnimating = s.isAnimating := by
  induction frames generalizing s with
  | nil => rfl
  | cons f fs ih => rw [runFrames_cons, ih, animate_isAnimating]

theorem runFrames_isHoveredAt (frames : List (α × α)) (s : State α) (i : Nat) :
    isHoveredAt (runFrames M s frames) i = isHoveredAt s i := by
  induction frames generalizing s with
  | nil => rfl
  | cons f fs ih => rw [runFrames_cons, ih, animate_isHoveredAt]

theorem runFrames_offsetAt (frames : List (α × α)) (s : State α) (i : Nat)
    (hrun : s.isAnimating = true) (hidle : isHoveredAt s i = false) :
    offsetAt (runFrames M s frames) i = 0.9 ^ frames.length * offsetAt s i := by
  induction frames generalizing s with
  | nil => simp [runFrames]
  | cons f fs ih =>
    rw [runFrames_cons, ih _ (by rw [animate_isAnimating]; exact hrun)
      (by rw [animate_isHoveredAt]; exact hidle),
      animate_offsetAt M s f.1 f.2 i hrun hidle, List.length_cons, pow_succ]
    ring

end Bob

/-- C7, amended: in exact arithmetic (any Archimedean ordered field, so in
particular the reals), for a planet that is not hovered, while the animation
runs each frame
maps its vertical offset `y` to exactly `0.9 * y` whatever `delta` is (and
leaves the hover flag alone); so after `n` frames the offset is `0.9 ^ n`
times the initial one, its magnitude never increases, its sign never changes,
and it converges to `0`. -/
theorem idle_bob_decay [Archimedean α] (M : MathEnv α) (s : State α) (i : Nat)
    (hrun : s.isAnimating = true) (hidle : isHoveredAt s i = false) :
    (∀ delta time : α, offsetAt (animate M s delta time) i = 0.9 * offsetAt s i) ∧
    (∀ frames : List (α × α), isHoveredAt (runFrames M s frames) i = false) ∧
    (∀ frames : List (α × α),
      offsetAt (runFrames M s frames) i = 0.9 ^ frames.length * offsetAt s i) ∧
    (∀ (frames : List (α × α)) (delta time : α),
      |offsetAt (animate M (runFrames M s frames) delta time) i| ≤
        |offsetAt (runFrames M s frames) i|) ∧
    (∀ frames : List (α × α),
      (0 < offsetAt s i → 0 < offsetAt (runFrames M s frames) i) ∧
      (offsetAt s i < 0 → offsetAt (runFrames M s frames) i < 0)) ∧
    (∀ ε : α, 0 < ε → ∃ N : Nat, ∀ frames : List (α × α), N ≤ frames.length →
      |offsetAt (runFrames M s frames) i| < ε) := by
  have h0 : (0 : α) ≤ 0.9 := by norm_num
  have h0p : (0 : α) < 0.9 := by norm_num
  have h1 : (0.9 : α) < 1 := by norm_num
  have hframes := fun frames => runFrames_offsetAt M frames s i hrun hidle
  refine ⟨fun delta time => animate_offsetAt M s delta time i hrun hidle,
    fun frames => by rw [runFrames_isHoveredAt]; exact hidle, hframes, ?_, ?_, ?_⟩
  · intro frames delta time
    rw [animate_offsetAt M _ delta time i (by rw [runFrames_isAnimating]; exact hrun)
      (by rw [runFrames_isHoveredAt]; exact hidle), hframes]
    have := abs_pow_mul_le h0 h1.le (offsetAt s i) frames.length
    rwa [pow_succ, mul_comm (0.9 ^ frames.length) (0.9 : α), mul_assoc] at this
  · intro frames
    rw [hframes]
    have hp : (0 : α) < 0.9 ^ frames.length := pow_pos h0p _
    exact ⟨fun h => mul_pos hp h, fun h => mul_neg_of_pos_of_neg hp h⟩
  · intro ε hε
    obtain ⟨N, hN⟩ := exists_abs_pow_mul_lt h0 h1 (offsetAt s i) hε
    exact ⟨N, fun frames hlen => by rw [hframes]; exact hN _ hlen⟩

theorem idle_bob_decay_witness :
    liftedEarth.isAnimating = true ∧ isHoveredAt liftedEarth 2 = false ∧
    offsetAt liftedEarth 2 = 1 / 5 ∧
    offsetAt (animate ratMath liftedEarth 7 3) 2 = 0.9 * offsetAt liftedEarth 2 ∧
    ∃ N : Nat, ∀ frames : List (ℚ × ℚ), N ≤ frames.length →
      |offsetAt (runFrames ratMath liftedEarth frames) 2| < 1 / 100 :=
  ⟨rfl, rfl, rfl, (idle_bob_decay ratMath liftedEarth 2 rfl rfl).1 7 3,
    (idle_bob_decay ratMath liftedEarth 2 rfl rfl).2.2.2.2.2 (1 / 100) (by norm_num)⟩

/-! ## The ten-second scenario -/

section Scenario

variable (M : MathEnv α)

theorem runFrames_angle (frames : List (α × α)) (s : State α) (i : Nat) (p : Planet α)
    (hrun : s.isAnimating = true) (hp : s.planets[i]? = some p) :
    ∃ q, (runFrames M s frames).planets[i]? = some q ∧ q.speed = p.speed ∧
      q.baseSpeed = p.baseSpeed ∧
      q.angle = p.angle + (frames.map Prod.fst).sum * p.speed * 0.1 := by
  induction frames generalizing s p with
  | nil => exact ⟨p, hp, rfl, rfl, by simp⟩
  | cons f fs ih =>
    have hstep : (animate M s f.1 f.2).planets[i]? = some (animatePlanet M f.1 f.2 p) := by
      rw [animate_planets_of_animating M s f.1 f.2 hrun, List.getElem?_map, hp]
      rfl
    obtain ⟨q, hq, hs, hb, ha⟩ :=
      ih (animate M s f.1 f.2) (animatePlanet M f.1 f.2 p)
        (by rw [animate_isAnimating]; exact hrun) hstep
    refine ⟨q, by rw [runFrames_cons]; exact hq, hs, hb, ?_⟩
    rw [ha, List.map_cons, List.sum_cons]
    simp only [animatePlanet]
    ring

end Scenario

/-- C8, amended: in exact arithmetic (any ordered field, so in particular the
reals), the constructed object has the eight planets Mercury ... Neptune with
base speeds 4.74, 3.50, 2.98, 2.41, 1.31, 0.97, 0.68, 0.54, each with its
speed equal to its base speed, and the animation running; and for every
finite sequence of frames whose deltas sum to `10` (no other event in
between; in particular for non-negative deltas), every planet's final angle
is `initialAngle + 10 * baseSpeed * 0.1`, however the ten seconds are split. -/
theorem ten_second_scenario (M : MathEnv α) (frames : List (α × α))
    (hsum : (frames.map Prod.fst).sum = 10) :
    (new M).isAnimating = true ∧
    (new M).planets.map (fun p => (p.mesh.userData.name, p.baseSpeed, p.speed)) =
      [("Mercury", 4.74, 4.74), ("Venus", 3.50, 3.50), ("Earth", 2.98, 2.98),
       ("Mars", 2.41, 2.41), ("Jupiter", 1.31, 1.31), ("Saturn", 0.97, 0.97),
       ("Uranus", 0.68, 0.68), ("Neptune", 0.54, 0.54)] ∧
    ∀ (i : Nat) (p : Planet α), (new M).planets[i]? = some p →
      ∃ q, (runFrames M (new M) frames).planets[i]? = some q ∧
        q.angle = p.angle + 10 * p.baseSpeed * 0.1 := by
  refine ⟨rfl, rfl, fun i p hp => ?_⟩
  obtain ⟨q, hq, _, _, ha⟩ := runFrames_angle M frames (new M) i p rfl hp
  refine ⟨q, hq, ?_⟩
  have hbase : p.baseSpeed = p.speed := by
    have hmem : p ∈ (new M).planets := List.getElem?_mem hp
    simp only [new, createPlanets, List.mem_map] at hmem
    obtain ⟨d, _, rfl⟩ := hmem
    rfl
  rw [ha, hsum, hbase]

theorem ten_second_scenario_witness :
    (∀ f ∈ [((4 : ℚ), (4 : ℚ)), (0, 4), (6, 10)], 0 ≤ f.1) ∧
    (([((4 : ℚ), (4 : ℚ)), (0, 4), (6, 10)].map Prod.fst).sum = 10) ∧
    ∃ q, (runFrames ratMath (new ratMath) [(4, 4), (0, 4), (6, 10)]).planets[0]? = some q ∧
      q.angle = (1 / 2 * (355 / 113) * 2 : ℚ) + 10 * 4.74 * 0.1 :=
  ⟨by decide, by norm_num,
    (ten_second_scenario ratMath [(4, 4), (0, 4), (6, 10)] (by norm_num)).2.2 0
      (createPlanet ratMath 0 ⟨"mercury", "Mercury", 0.38, 8, 4.74, 0x8c7853,
        "Closest planet to the Sun, extreme temperatures"⟩) rfl⟩

/-! ## Drag to orbit -/

/-- C9: in every reachable state, a `mousemove` at
`(previousX + dx, previousY + dy)` adds exactly `0.01 * dx` to
`targetRotationY` when `isDragging` is true (and records the new pointer
position, so the next move is measured from it), and leaves `targetRotationY`
and `targetRotationX` unchanged when `isDragging` is false, as it is after a
`mouseup`; a dragging move with `dx = 100`, `dy = 0` adds exactly `1` to
`targetRotationY` and leaves `targetRotationX` unchanged; and a frame never
modifies `targetRotationY`. -/
theorem drag_yaw (M : MathEnv α) (hPI : 0 ≤ M.PI) (s : State α) (hs : Reachable M s)
    (hits : List Nat) :
    (s.mouse.isDragging = true → ∀ dx dy : α,
      (onMouseMove M s (s.mouse.previousX + dx) (s.mouse.previousY + dy)
        hits).cameraControls.targetRotationY = s.cameraControls.targetRotationY + 0.01 * dx ∧
      (onMouseMove M s (s.mouse.previousX + dx) (s.mouse.previousY + dy)
        hits).mouse.previousX = s.mouse.previousX + dx ∧
      (onMouseMove M s (s.mouse.previousX + dx) (s.mouse.previousY + dy)
        hits).mouse.isDragging = true) ∧
    (s.mouse.isDragging = false → ∀ dx dy : α,
      (onMouseMove M s (s.mouse.previousX + dx) (s.mouse.previousY + dy)
        hits).cameraControls.targetRotationY = s.cameraControls.targetRotationY ∧
      (onMouseMove M s (s.mouse.previousX + dx) (s.mouse.previousY + dy)
        hits).cameraControls.targetRotationX = s.cameraControls.targetRotationX) ∧
    (∀ x y : α,
      (onMouseMove M (onMouseUp s) x y hits).cameraControls.targetRotationY =
        s.cameraControls.targetRotationY ∧
      (onMouseMove M (onMouseUp s) x y hits).cameraControls.targetRotationX =
        s.cameraControls.targetRotationX) ∧
    (s.mouse.isDragging = true →
      (onMouseMove M s (s.mouse.previousX + 100) (s.mouse.previousY + 0)
        hits).cameraControls.targetRotationY = s.cameraControls.targetRotationY + 1 ∧
      (onMouseMove M s (s.mouse.previousX + 100) (s.mouse.previousY + 0)
        hits).cameraControls.targetRotationX = s.cameraControls.targetRotationX) ∧
    (∀ delta time : α,
      (animate M s delta time).cameraControls.targetRotationY =
        s.cameraControls.targetRotationY) := by
  obtain ⟨events, rfl⟩ := hs
  have hX := run_targetRotationX M hPI events (new M) (new_targetRotationX M hPI)
  refine ⟨fun hd dx dy => ?_, fun hd dx dy => ?_, fun x y => ?_, fun hd => ?_,
    fun delta time => ?_⟩
  · unfold onMouseMove
    rw [hoverPick_cameraControls, hoverPick_mouse, dragRotate_isDragging,
      (dragRotate_of_dragging M _ _ _ hd).1]
    refine ⟨by ring, ?_, hd⟩
    simp [dragRotate, hd]
  · unfold onMouseMove
    rw [hoverPick_cameraControls, dragRotate_of_not_dragging M _ _ _ hd]
    exact ⟨rfl, rfl⟩
  · unfold onMouseMove
    rw [hoverPick_cameraControls, dragRotate_of_not_dragging M _ _ _ rfl]
    exact ⟨rfl, rfl⟩
  · unfold onMouseMove
    rw [hoverPick_cameraControls, (dragRotate_of_dragging M _ _ _ hd).1,
      (dragRotate_of_dragging M _ _ _ hd).2]
    refine ⟨by ring, ?_⟩
    have e : (run M (new M) events).cameraControls.targetRotationX +
        ((run M (new M) events).mouse.previousY + 0 -
          (run M (new M) events).mouse.previousY) * 0.01 =
        (run M (new M) events).cameraControls.targetRotationX := by ring
    rw [e, min_eq_right hX.2, max_eq_right hX.1]
  · rw [animate_cameraControls]
    rfl

theorem drag_yaw_witness :
    (0 : ℚ) ≤ ratMath.PI ∧ Reachable ratMath (onMouseDown (new ratMath) 5 5) ∧
    (onMouseMove ratMath (onMouseDown (new ratMath) 5 5)
        ((onMouseDown (new ratMath) 5 5).mouse.previousX + 100)
        ((onMouseDown (new ratMath) 5 5).mouse.previousY + 0)
        [1]).cameraControls.targetRotationY =
      (onMouseDown (new ratMath) 5 5).cameraControls.targetRotationY + 1 ∧
    (onMouseMove ratMath (onMouseDown (new ratMath) 5 5)
        ((onMouseDown (new ratMath) 5 5).mouse.previousX + 100)
        ((onMouseDown (new ratMath) 5 5).mouse.previousY + 0)
        [1]).cameraControls.targetRotationX =
      (onMouseDown (new ratMath) 5 5).cameraControls.targetRotationX :=
  ⟨by norm_num [ratMath], ⟨[.mousedown 5 5], rfl⟩,
    (drag_yaw ratMath (by norm_num [ratMath]) (onMouseDown (new ratMath) 5 5)
      ⟨[.mousedown 5 5], rfl⟩ [1]).2.2.2.1 rfl⟩

/-! ## Monotonicity of the orbit angle -/

/-- C10, as stated, fails: on the constructed object (animation running) a
frame with `delta = 0` leaves the first planet's angle where it was, so the
new angle is not greater than the old one. -/
theorem animate_angle_not_strictly_increasing :
    (0 : ℚ) ≤ 0 ∧ (new ratMath).isAnimating = true ∧
    ∃ p q, (new ratMath).planets[0]? = some p ∧
      (animate ratMath (new ratMath) 0 0).planets[0]? = some q ∧
      ¬ (p.angle < q.angle) :=
  ⟨le_refl 0, rfl, createPlanet ratMath 0 ⟨"mercury", "Mercury", 0.38, 8, 4.74, 0x8c7853,
      "Closest planet to the Sun, extreme temperatures"⟩,
    animatePlanet ratMath 0 0 (createPlanet ratMath 0 ⟨"mercury", "Mercury", 0.38, 8, 4.74,
      0x8c7853, "Closest planet to the Sun, extreme temperatures"⟩),
    rfl, rfl, by simp [animatePlanet, createPlanet]⟩

/-- C10, amended: with the animation running, for every `delta ≥ 0` and every
planet with speed `≥ 0`, one frame never decreases the planet's angle, and it
strictly increases the angle exactly when `delta > 0` and the speed is `> 0`. -/
theorem animate_angle_monotone (M : MathEnv α) (s : State α) (delta time : α)
    (h : s.isAnimating = true) (i : Nat) (p : Planet α) (hp : s.planets[i]? = some p)
    (hdelta : 0 ≤ delta) (hspeed : 0 ≤ p.speed) :
    ∃ q, (animate M s delta time).planets[i]? = some q ∧
      p.angle ≤ q.angle ∧ (p.angle < q.angle ↔ 0 < delta ∧ 0 < p.speed) := by
  obtain ⟨q, hq, ha, _⟩ := animate_angle_aux M s delta time h i p hp
  refine ⟨q, hq, ?_, ?_⟩
  · rw [ha]
    have : 0 ≤ delta * p.speed * 0.1 := by positivity
    linarith
  · rw [ha]
    constructor
    · intro hlt
      have hpos : 0 < delta * p.speed * 0.1 := by linarith
      refine ⟨lt_of_le_of_ne hdelta ?_, lt_of_le_of_ne hspeed ?_⟩ <;>
        (intro h0; rw [← h0] at hpos; simp at hpos)
    · rintro ⟨hd, hsp⟩
      have : 0 < delta * p.speed * 0.1 := by positivity
      linarith

theorem animate_angle_monotone_witness :
    (new ratMath).isAnimating = true ∧ (0 : ℚ) ≤ 1 / 60 ∧
    ∃ q, (animate ratMath (new ratMath) (1 / 60) 0).planets[0]? = some q ∧
      (1 / 2 * (355 / 113) * 2 : ℚ) ≤ q.angle ∧
      ((1 / 2 * (355 / 113) * 2 : ℚ) < q.angle ↔ (0 : ℚ) < 1 / 60 ∧ (0 : ℚ) < 4.74) :=
  ⟨rfl, by norm_num, animate_angle_monotone ratMath (new ratMath) (1 / 60) 0 rfl 0
    (createPlanet ratMath 0 ⟨"mercury", "Mercury", 0.38, 8, 4.74, 0x8c7853,
      "Closest planet to the Sun, extreme temperatures"⟩) rfl (by norm_num)
      (by norm_num [createPlanet])⟩

/-! ## Speed control -/

section Slider

theorem map_updateAt {β γ : Type} (g : β → γ) (f : β → β) (hf : ∀ b, g (f b) = g b)
    (l : List β) (i : Nat) : (updateAt f i l).map g = l.map g := by
  induction l generalizing i with
  | nil => simp [updateAt]
  | cons b bs ih =>
    cases i with
    | zero => simp [updateAt, hf]
    | succ i => simp [updateAt, ih]

theorem onSliderInput_getElem? (s : State α) (i j : Nat) (v : α) :
    (onSliderInput s i v).planets[j]? =
      if j = i then
        s.planets[j]?.map
          (fun p => { p with speed := v, mesh := { p.mesh with emissive := 0x444444 } })
      else s.planets[j]? :=
  getElem?_updateAt _ s.planets i j

end Slider

/-- C11: the slider input handler sets the addressed planet's speed to exactly
the parsed value, whatever it is (no clamping), changes no planet's angle and
leaves every other planet as it was; and once a planet's speed has been set to
`0`, a running frame with any `delta` leaves that planet's angle unchanged. -/
theorem slider_sets_speed (M : MathEnv α) (s : State α) (i : Nat) (p : Planet α)
    (hp : s.planets[i]? = some p) :
    (∀ v : α, ∃ q, (onSliderInput s i v).planets[i]? = some q ∧
      q.speed = v ∧ q.angle = p.angle) ∧
    (∀ (v : α) (j : Nat), j ≠ i → (onSliderInput s i v).planets[j]? = s.planets[j]?) ∧
    (∀ v : α, (onSliderInput s i v).planets.map (fun q => q.angle) =
      s.planets.map (fun q => q.angle)) ∧
    (s.isAnimating = true → ∀ delta time : α,
      ∃ q, (animate M (onSliderInput s i 0) delta time).planets[i]? = some q ∧
        q.angle = p.angle) := by
  refine ⟨fun v => ?_, fun v j hj => ?_, fun v => ?_, fun hrun delta time => ?_⟩
  · refine ⟨{ p with speed := v, mesh := { p.mesh with emissive := 0x444444 } },
      ?_, rfl, rfl⟩
    rw [onSliderInput_getElem?, if_pos rfl, hp]
    rfl
  · rw [onSliderInput_getElem?, if_neg hj]
  · exact map_updateAt (fun q : Planet α => q.angle)
      (fun q => { q with speed := v, mesh := { q.mesh with emissive := 0x444444 } })
      (fun _ => rfl) s.planets i
  · have hq : (onSliderInput s i 0).planets[i]? =
        some { p with speed := 0, mesh := { p.mesh with emissive := 0x444444 } } := by
      rw [onSliderInput_getElem?, if_pos rfl, hp]
      rfl
    obtain ⟨q, hq1, hq2, _⟩ :=
      animate_angle_aux M (onSliderInput s i 0) delta time hrun i _ hq
    refine ⟨q, hq1, ?_⟩
    rw [hq2]
    simp

theorem slider_sets_speed_witness :
    (∃ q, (onSliderInput (new ratMath) 0 25).planets[0]? = some q ∧
      q.speed = 25 ∧ q.angle = (1 / 2 * (355 / 113) * 2 : ℚ)) ∧
    ((new ratMath).isAnimating = true ∧
      ∃ q, (animate ratMath (onSliderInput (new ratMath) 0 0) 5 5).planets[0]? = some q ∧
        q.angle = (1 / 2 * (355 / 113) * 2 : ℚ)) :=
  have h := slider_sets_speed ratMath (new ratMath) 0
    (createPlanet ratMath 0 ⟨"mercury", "Mercury", 0.38, 8, 4.74, 0x8c7853,
      "Closest planet to the Sun, extreme temperatures"⟩) rfl
  ⟨h.1 25, rfl, h.2.2.2 rfl 5 5⟩

/-! ## Wheel to zoom -/

section Wheel

theorem onWheel_of_pos (s : State α) (deltaY : α) (h : 0 < deltaY) :
    (onWheel s deltaY).cameraControls.targetDistance =
      max 20 (min 200 (s.cameraControls.targetDistance + 1 * 5)) := by
  simp [onWheel, h]

theorem onWheel_of_not_pos (s : State α) (deltaY : α) (h : ¬ 0 < deltaY) :
    (onWheel s deltaY).cameraControls.targetDistance =
      max 20 (min 200 (s.cameraControls.targetDistance + -1 * 5)) := by
  simp [onWheel, h]

end Wheel

/-- C12, as stated, fails: a wheel event with `deltaY = 0` (its sign is `0`) on
the constructed object moves `targetDistance` from `60` to `55`, not to
`clamp (60 + 5 * 0) 20 200 = 60`. -/
theorem onWheel_zero_steps :
    (new ratMath).cameraControls.targetDistance = 60 ∧
    (onWheel (new ratMath) 0).cameraControls.targetDistance = 55 ∧
    (onWheel (new ratMath) 0).cameraControls.targetDistance ≠
      max 20 (min 200 ((new ratMath).cameraControls.targetDistance +
        5 * ((SignType.sign (0 : ℚ) : SignType) : ℚ))) := by
  have h : (onWheel (new ratMath) 0).cameraControls.targetDistance = 55 := by
    rw [onWheel_of_not_pos _ _ (lt_irrefl 0)]
    show max 20 (min 200 ((60 : ℚ) + -1 * 5)) = 55
    norm_num
  refine ⟨rfl, h, ?_⟩
  rw [h]
  show (55 : ℚ) ≠ max 20 (min 200 ((60 : ℚ) + 5 * ((SignType.sign (0 : ℚ) : SignType) : ℚ)))
  norm_num

/-- C12, amended: for every wheel event with `deltaY ≠ 0`, `targetDistance`
becomes `clamp (old + 5 * s) 20 200` where `s` is the sign of `deltaY`; and
for every wheel event the step does not depend on the magnitude of `deltaY`:
two wheel events whose `deltaY` have the same sign, applied to the same state,
give the same `targetDistance`. -/
theorem wheel_step (s : State α) (deltaY : α) :
    (deltaY ≠ 0 →
      (onWheel s deltaY).cameraControls.targetDistance =
        max 20 (min 200 (s.cameraControls.targetDistance +
          5 * ((SignType.sign deltaY : SignType) : α)))) ∧
    (∀ deltaY2 : α, SignType.sign deltaY2 = SignType.sign deltaY →
      (onWheel s deltaY2).cameraControls.targetDistance =
        (onWheel s deltaY).cameraControls.targetDistance) := by
  constructor
  · intro hne
    rcases lt_or_gt_of_ne hne with hneg | hpos
    · rw [onWheel_of_not_pos s deltaY (not_lt.mpr hneg.le), sign_neg hneg]
      simp [mul_comm]
    · rw [onWheel_of_pos s deltaY hpos, sign_pos hpos]
      simp
  · intro deltaY2 hsign
    by_cases hpos : 0 < deltaY
    · have hpos2 : 0 < deltaY2 := by
        rw [← sign_eq_one_iff, hsign, sign_pos hpos]
      rw [onWheel_of_pos s deltaY hpos, onWheel_of_pos s deltaY2 hpos2]
    · have hpos2 : ¬ 0 < deltaY2 := by
        intro h2
        apply hpos
        rw [← sign_eq_one_iff, ← hsign, sign_pos h2]
      rw [onWheel_of_not_pos s deltaY hpos, onWheel_of_not_pos s deltaY2 hpos2]

theorem wheel_step_witness :
    ((3 : ℚ) ≠ 0 ∧
      (onWheel (new ratMath) 3).cameraControls.targetDistance =
        max 20 (min 200 ((new ratMath).cameraControls.targetDistance +
          5 * ((SignType.sign (3 : ℚ) : SignType) : ℚ)))) ∧
    (SignType.sign (120 : ℚ) = SignType.sign (3 : ℚ) ∧
      (onWheel (new ratMath) 120).cameraControls.targetDistance =
        (onWheel (new ratMath) 3).cameraControls.targetDistance) :=
  ⟨⟨by norm_num, (wheel_step (new ratMath) 3).1 (by norm_num)⟩,
   ⟨by rw [sign_pos (by norm_num), sign_pos (by norm_num)],
    (wheel_step (new ratMath) 3).2 120
      (by rw [sign_pos (by norm_num), sign_pos (by norm_num)])⟩⟩

/-! ## Smoothed camera state -/

section SmoothedRange

variable (M : MathEnv α)

theorem lerp_mem_Icc {lo hi cur tgt : α} (hc : cur ∈ Set.Icc lo hi)
    (ht : tgt ∈ Set.Icc lo hi) : cur + (tgt - cur) * 0.05 ∈ Set.Icc lo hi := by
  have e : cur + (tgt - cur) * 0.05 = (19 / 20) * cur + (1 / 20) * tgt := by
    norm_num
    ring
  rw [e]
  obtain ⟨hc1, hc2⟩ := hc
  obtain ⟨ht1, ht2⟩ := ht
  constructor <;> linarith

theorem dragRotate_current (s : State α) (x y : α) :
    (dragRotate M s x y).cameraControls.currentRotationX =
        s.cameraControls.currentRotationX ∧
    (dragRotate M s x y).cameraControls.currentDistance =
        s.cameraControls.currentDistance := by
  unfold dragRotate
  split <;> exact ⟨rfl, rfl⟩

theorem updateCameraPosition_inRange (s : State α) (h : CameraInRange M s) :
    CameraInRange M (updateCameraPosition M s) :=
  ⟨h.1, h.2.1, lerp_mem_Icc h.2.2.1 h.1, lerp_mem_Icc h.2.2.2 h.2.1⟩

theorem step_inRange (hPI : 0 ≤ M.PI) (s : State α) (e : Event α)
    (h : CameraInRange M s) : CameraInRange M (step M s e) := by
  cases e with
  | mousemove x y hits =>
    refine ⟨onMouseMove_targetRotationX M hPI s x y hits h.1,
      step_targetDistance M s (.mousemove x y hits) h.2.1, ?_, ?_⟩
    · show (onMouseMove M s x y hits).cameraControls.currentRotationX ∈ _
      unfold onMouseMove
      rw [hoverPick_cameraControls, (dragRotate_current M s x y).1]
      exact h.2.2.1
    · show (onMouseMove M s x y hits).cameraControls.currentDistance ∈ _
      unfold onMouseMove
      rw [hoverPick_cameraControls, (dragRotate_current M s x y).2]
      exact h.2.2.2
  | wheel deltaY => exact ⟨h.1, onWheel_targetDistance s deltaY, h.2.2.1, h.2.2.2⟩
  | frame delta time =>
    have hu := updateCameraPosition_inRange M s h
    show CameraInRange M (animate M s delta time)
    unfold CameraInRange at hu ⊢
    rw [animate_cameraControls]
    exact hu
  | _ => exact h

theorem run_inRange (hPI : 0 ≤ M.PI) (events : List (Event α)) (s : State α)
    (h : CameraInRange M s) : CameraInRange M (run M s events) := by
  induction events generalizing s with
  | nil => exact h
  | cons e es ih => exact ih (step M s e) (step_inRange M hPI s e h)

theorem new_inRange (hPI : 0 ≤ M.PI) : CameraInRange M (new M) := by
  have h0 : (0 : α) ∈ Set.Icc (-M.PI / 2) (M.PI / 2) := by
    constructor <;> linarith
  have h60 : (60 : α) ∈ Set.Icc (20 : α) 200 := by
    constructor <;> norm_num
  exact ⟨h0, h60, h0, h60⟩

end SmoothedRange

/-- C13: in every state reached from the constructed object
(`currentRotationX = 0`, `currentDistance = 60`) by any finite sequence of
events (mousedown, mousemove, mouseup, wheel and frame events, and also slider
and button events), the smoothed values satisfy
`currentRotationX ∈ [-π/2, π/2]` and `currentDistance ∈ [20, 200]`, where
`Math.PI` is the real number `π`: a frame moves each smoothed value a fraction
`0.05` of the way toward a target that is itself in range. -/
theorem current_mem_Icc (sin cos : ℝ → ℝ) (random : Nat → ℝ) (events : List (Event ℝ)) :
    (run ⟨Real.pi, sin, cos, random⟩ (new ⟨Real.pi, sin, cos, random⟩)
      events).cameraControls.currentRotationX ∈ Set.Icc (-(Real.pi / 2)) (Real.pi / 2) ∧
    (run ⟨Real.pi, sin, cos, random⟩ (new ⟨Real.pi, sin, cos, random⟩)
      events).cameraControls.currentDistance ∈ Set.Icc (20 : ℝ) 200 := by
  have h := run_inRange ⟨Real.pi, sin, cos, random⟩ Real.pi_pos.le events
    (new ⟨Real.pi, sin, cos, random⟩) (new_inRange _ Real.pi_pos.le)
  exact ⟨by simpa [neg_div] using h.2.2.1, h.2.2.2⟩

/-! ## Camera position -/

section Sphere

theorem updateCameraPosition_norm_sq (M : MathEnv α)
    (hsc : ∀ t, M.sin t ^ 2 + M.cos t ^ 2 = 1) (s : State α) :
    (updateCameraPosition M s).cameraPosition.x ^ 2 +
      (updateCameraPosition M s).cameraPosition.y ^ 2 +
      (updateCameraPosition M s).cameraPosition.z ^ 2 =
    (updateCameraPosition M s).cameraControls.currentDistance ^ 2 := by
  simp only [updateCameraPosition]
  have h1 := hsc (s.cameraControls.currentRotationY +
    (s.cameraControls.targetRotationY - s.cameraControls.currentRotationY) * 0.05)
  have h2 := hsc (s.cameraControls.currentRotationX +
    (s.cameraControls.targetRotationX - s.cameraControls.currentRotationX) * 0.05)
  linear_combination
    ((s.cameraControls.currentDistance +
        (s.cameraControls.targetDistance - s.cameraControls.currentDistance) * 0.05) ^ 2 *
      M.cos (s.cameraControls.currentRotationX +
        (s.cameraControls.targetRotationX - s.cameraControls.currentRotationX) * 0.05) ^ 2) *
      h1 +
    (s.cameraControls.currentDistance +
        (s.cameraControls.targetDistance - s.cameraControls.currentDistance) * 0.05) ^ 2 * h2

end Sphere

/-- C14: with the real sine and cosine, for every state (every yaw, pitch and
distance, current and target) the position `(x, y, z)` that
`updateCameraPosition` computes satisfies
`x ^ 2 + y ^ 2 + z ^ 2 = currentDistance ^ 2`, so the camera's distance from
the origin it looks at is `|currentDistance|`, whatever the rotation; here
`currentDistance` is the smoothed distance the position is computed from. -/
theorem camera_on_sphere (random : Nat → ℝ) (s : State ℝ) :
    (updateCameraPosition ⟨Real.pi, Real.sin, Real.cos, random⟩ s).cameraPosition.x ^ 2 +
      (updateCameraPosition ⟨Real.pi, Real.sin, Real.cos, random⟩ s).cameraPosition.y ^ 2 +
      (updateCameraPosition ⟨Real.pi, Real.sin, Real.cos, random⟩ s).cameraPosition.z ^ 2 =
    (updateCameraPosition ⟨Real.pi, Real.sin, Real.cos, random⟩
      s).cameraControls.currentDistance ^ 2 ∧
    Real.sqrt
      ((updateCameraPosition ⟨Real.pi, Real.sin, Real.cos, random⟩ s).cameraPosition.x ^ 2 +
       (updateCameraPosition ⟨Real.pi, Real.sin, Real.cos, random⟩ s).cameraPosition.y ^ 2 +
       (updateCameraPosition ⟨Real.pi, Real.sin, Real.cos, random⟩ s).cameraPosition.z ^ 2) =
    |(updateCameraPosition ⟨Real.pi, Real.sin, Real.cos, random⟩
      s).cameraControls.currentDistance| := by
  have h := updateCameraPosition_norm_sq ⟨Real.pi, Real.sin, Real.cos, random⟩
    (fun t => Real.sin_sq_add_cos_sq t) s
  exact ⟨h, by rw [h]; exact Real.sqrt_sq_eq_abs _⟩

/-! ## The orbit advance and the idle relaxation in binary64 -/

section Binary64

theorem log2Search_spec (f lo q : Nat) (h1 : 2 ^ lo ≤ q) (h2 : q < 2 ^ (lo + 2 ^ f)) :
    2 ^ log2Search f lo q ≤ q ∧ q < 2 ^ (log2Search f lo q + 1) := by
  induction f generalizing lo with
  | zero => exact ⟨h1, by simpa using h2⟩
  | succ f ih =>
    unfold log2Search
    split
    · rename_i h
      exact ih _ h (by rw [Nat.add_assoc, ← Nat.two_mul, ← Nat.pow_succ']; exact h2)
    · rename_i h
      exact ih _ h1 (Nat.lt_of_not_le h)

theorem log2Search_zero (f lo : Nat) : log2Search f lo 0 = lo := by
  induction f generalizing lo with
  | zero => rfl
  | succ f ih =>
    unfold log2Search
    rw [if_neg (Nat.not_le.mpr (Nat.two_pow_pos _)), ih]

theorem floorLog2_eq_log2 (q : Nat) : floorLog2 q = Nat.log2 q := by
  unfold floorLog2
  split
  · rename_i h
    by_cases hq : q = 0
    · subst hq
      rw [log2Search_zero]
      unfold Nat.log2
      rfl
    · have e : (0 + 2 ^ 12 : Nat) = 4096 := by norm_num
      obtain ⟨h1, h2⟩ :=
        log2Search_spec 12 0 q (Nat.pos_of_ne_zero hq) (by rw [e]; exact h)
      apply Nat.le_antisymm
      · exact (Nat.le_log2 hq).mpr h1
      · exact Nat.lt_succ_iff.mp ((Nat.log2_lt hq).mpr h2)
  · rfl

theorem literal_tenth :
    (Double.literal 1 1).scaled = Int.ofNat (3602879701896397 * 2 ^ 1019) := by
  decide!

theorem tenth_add_fifth :
    (Double.literal 1 1).add (Double.literal 2 1) = Double.literal 30000000000000004 17 ∧
    (Double.literal 1 1).add (Double.literal 2 1) ≠ Double.literal 3 1 := by
  refine ⟨by decide!, by decide!⟩

end Binary64

/-- C8, as stated (no restriction to exact arithmetic), fails on the code's
numbers: for Mercury (speed `4.74`, initial angle `0`, as when `Math.random()`
returns `0`) with the animation running, the deltas `10` and `4, 0, 6` are
non-negative and both sum to `10`, yet the final angles differ, so the result
depends on how the ten seconds are split into frames (`4.740000000000001`
against `4.74`); the single frame gives the binary64 value of
`initialAngle + 10 * baseSpeed * 0.1` itself. -/
theorem ten_second_split_binary64 :
    ((Double.literal 4 0).add (Double.literal 0 0)).add (Double.literal 6 0) =
      Double.literal 10 0 ∧
    runAngle64 (Double.literal 0 0) (Double.literal 474 2) [Double.literal 10 0] =
      (Double.literal 0 0).add
        (((Double.literal 10 0).mul (Double.literal 474 2)).mul (Double.literal 1 1)) ∧
    runAngle64 (Double.literal 0 0) (Double.literal 474 2) [Double.literal 10 0] =
      Double.literal 4740000000000001 15 ∧
    runAngle64 (Double.literal 0 0) (Double.literal 474 2)
        [Double.literal 4 0, Double.literal 0 0, Double.literal 6 0] =
      Double.literal 474 2 ∧
    runAngle64 (Double.literal 0 0) (Double.literal 474 2)
        [Double.literal 4 0, Double.literal 0 0, Double.literal 6 0] ≠
      runAngle64 (Double.literal 0 0) (Double.literal 474 2) [Double.literal 10 0] := by
  refine ⟨by decide!, by decide!, by decide!, by decide!, by decide!⟩

/-- C7, as stated (no restriction to exact arithmetic), fails on the code's
numbers: from the offset `0.2` one relaxation step gives `0.18`, which is
neither the binary64 product `0.9 * 0.2 = 0.18000000000000002` nor exactly
nine tenths of the offset; and the non-zero
offset `4 * 2 ^ (-1074)` is left unchanged by the step, so from there the
sequence stays where it is and does not converge to `0`. -/
theorem relax_binary64_not_nine_tenths :
    relax64 (Double.literal 2 1) = Double.literal 18 2 ∧
    (Double.literal 9 1).mul (Double.literal 2 1) = Double.literal 18000000000000002 17 ∧
    relax64 (Double.literal 2 1) ≠ (Double.literal 9 1).mul (Double.literal 2 1) ∧
    10 * (relax64 (Double.literal 2 1)).scaled ≠ 9 * (Double.literal 2 1).scaled ∧
    relax64 ⟨4⟩ = ⟨4⟩ ∧ (⟨4⟩ : Double) ≠ Double.literal 0 0 := by
  refine ⟨by decide!, by decide!, by decide!, by decide!, by decide!, by decide!⟩

end SolarSystem
